import Mathlib

/-!
Verification development for the geo-verify repository.

The source is TypeScript; this file is a shallow embedding of the core
verification engine into Lean 4:

* JS numbers are modelled as rationals (ℚ).  Every arithmetic operation the
  geohash encoder/decoder performs (halving of dyadic interval bounds,
  midpoint comparison) is exact in IEEE double for the precisions used
  (≤ 9 characters = 45 subdivision bits), so the ℚ model is faithful.
* Epoch-millisecond timestamps are modelled as Int (JS Date.now() returns an
  integer; subtraction may be negative, matching JS semantics).
* The haversine distance (src getDistance) is transcendental; functions that
  consume it take the distance function as an explicit parameter, so every
  theorem below holds for the actual haversine as a special case.
* HMAC-SHA256 (node crypto) is modelled as an explicit parameter producing
  the hex digest as a list of hex-digit values; theorems that depend on the
  digest shape carry the hypothesis that the digest has 64 hex digits,
  which is true of every SHA-256 hex digest.
* Mutable module state (the replay / rate-limit maps) is modelled by
  explicit state passing; JS Map is modelled as an association list.
* try/catch around base64/JSON decoding is modelled by an Option-returning
  parse parameter: the parse function returns none exactly when the JS
  try-block would have thrown.
-/

/-! ## Geohash module (src geohash: encodeGeohash / decodeGeohash)

Source constant: const BASE32 = '0123456789bcdefghjkmnpqrstuvwxyz'. -/

def base32Chars : List Char := "0123456789bcdefghjkmnpqrstuvwxyz".data

/-- The four interval bounds the encoder and decoder maintain
(minLat, maxLat, minLng, maxLng in the source). -/
structure GeoBox where
  minLat : ℚ
  maxLat : ℚ
  minLng : ℚ
  maxLng : ℚ
deriving DecidableEq

/-- Initial bounds: let minLat = -90, maxLat = 90; minLng = -180, maxLng = 180. -/
def initBox : GeoBox := ⟨-90, 90, -180, 180⟩

/-- One iteration of the encode loop body: halve the current axis interval,
emit bit 1 and keep the upper half when the target lies at or above the
midpoint (source: if (lng >= mid) { ch |= ...; minLng = mid } else maxLng = mid,
and symmetrically for latitude). -/
def encodeStep (lat lng : ℚ) (box : GeoBox) (isLng : Bool) : Bool × GeoBox :=
  if isLng then
    let mid := (box.minLng + box.maxLng) / 2
    if lng ≥ mid then (true, ⟨box.minLat, box.maxLat, mid, box.maxLng⟩)
    else (false, ⟨box.minLat, box.maxLat, box.minLng, mid⟩)
  else
    let mid := (box.minLat + box.maxLat) / 2
    if lat ≥ mid then (true, ⟨mid, box.maxLat, box.minLng, box.maxLng⟩)
    else (false, ⟨box.minLat, mid, box.minLng, box.maxLng⟩)

/-- The encode while-loop, one bit per iteration, alternating axes
(source: isLng = !isLng each iteration).  Returns the emitted bit stream
and the final interval bounds.  The source runs the loop until 5*precision
bits have been emitted (one base-32 character per 5 bits). -/
def encodeAux (lat lng : ℚ) : Nat → GeoBox → Bool → List Bool × GeoBox
  | 0, box, _ => ([], box)
  | n + 1, box, isLng =>
    let step := encodeStep lat lng box isLng
    let rest := encodeAux lat lng n step.2 (!isLng)
    (step.1 :: rest.1, rest.2)

/-- Value of 5 accumulated bits, most significant first
(source: ch |= 1 << (4 - bit)). -/
def bitsToNum (bs : List Bool) : Nat :=
  bs.foldl (fun a b => 2 * a + (if b then 1 else 0)) 0

/-- Group the bit stream into 5-bit chunks (source: emit one character each
time bit === 5).  The encoder always produces a multiple of 5 bits. -/
def chunk5 : List Bool → List (List Bool)
  | b1 :: b2 :: b3 :: b4 :: b5 :: rest => [b1, b2, b3, b4, b5] :: chunk5 rest
  | _ => []

/-- encodeGeohash(lat, lng, precision): interleaved binary subdivision,
longitude bit first, one BASE32 character per 5 bits. -/
def encodeGeohash (lat lng : ℚ) (precision : Nat) : String :=
  let bits := (encodeAux lat lng (5 * precision) initBox true).1
  ⟨(chunk5 bits).map (fun bs => base32Chars.getD (bitsToNum bs) '0')⟩

/-- Decoded geohash: center coordinate plus half-width / half-height error
(source return value of decodeGeohash). -/
structure DecodedGeohash where
  lat : ℚ
  lng : ℚ
  latError : ℚ
  lngError : ℚ
deriving DecidableEq

/-- Index of a character in the base-32 alphabet
(source: BASE32.indexOf(char), none for -1). -/
def idx32Aux : List Char → Char → Nat → Option Nat
  | [], _, _ => none
  | c :: cs, target, i => if c = target then some i else idx32Aux cs target (i + 1)

def idx32 (c : Char) : Option Nat := idx32Aux base32Chars c 0

/-- The 5 bits of a base-32 digit, most significant first
(source: for (let bit = 4; bit >= 0; bit--) (idx >> bit) & 1). -/
def charBits (idx : Nat) : List Bool :=
  [idx.testBit 4, idx.testBit 3, idx.testBit 2, idx.testBit 1, idx.testBit 0]

/-- One iteration of the decode loop body: same interval halving as the
encoder, driven by a stored bit. -/
def decodeStep (b : Bool) (box : GeoBox) (isLng : Bool) : GeoBox :=
  if isLng then
    let mid := (box.minLng + box.maxLng) / 2
    if b then ⟨box.minLat, box.maxLat, mid, box.maxLng⟩
    else ⟨box.minLat, box.maxLat, box.minLng, mid⟩
  else
    let mid := (box.minLat + box.maxLat) / 2
    if b then ⟨mid, box.maxLat, box.minLng, box.maxLng⟩
    else ⟨box.minLat, mid, box.minLng, box.maxLng⟩

/-- Replay a stored bit stream, alternating axes exactly like the encoder. -/
def decodeBits : List Bool → GeoBox → Bool → GeoBox × Bool
  | [], box, isLng => (box, isLng)
  | b :: bs, box, isLng => decodeBits bs (decodeStep b box isLng) (!isLng)

/-- The decode character loop: look each character up in the alphabet,
throwing (modelled as Except.error) on the first character not found
(source: if (idx === -1) throw new Error(...)), otherwise replay its 5 bits. -/
def decodeChars : List Char → GeoBox → Bool → Except String (GeoBox × Bool)
  | [], box, isLng => Except.ok (box, isLng)
  | c :: cs, box, isLng =>
    match idx32 c with
    | none => Except.error ("Invalid geohash character: " ++ String.singleton c)
    | some idx =>
      let next := decodeBits (charBits idx) box isLng
      decodeChars cs next.1 next.2

/-- Models String.prototype.toLowerCase on the ASCII range
(source: hash.toLowerCase()). -/
def toLowerStr (s : String) : String := ⟨s.data.map Char.toLower⟩

/-- decodeGeohash(hash): lowercase the input, replay the subdivision, return
the interval center and half-width errors; hard error on any character
outside the base-32 alphabet. -/
def decodeGeohash (hash : String) : Except String DecodedGeohash :=
  match decodeChars (toLowerStr hash).data initBox true with
  | Except.error e => Except.error e
  | Except.ok (box, _) =>
    Except.ok ⟨(box.minLat + box.maxLat) / 2, (box.minLng + box.maxLng) / 2,
               (box.maxLat - box.minLat) / 2, (box.maxLng - box.minLng) / 2⟩

/-! ## Decimal rendering helpers (JS Number.prototype.toString for integers,
and String.prototype.padStart) -/

/-- Decimal digit characters of a natural number, most significant first,
computed with a structural fuel argument (fuel at least n + 1 suffices). -/
def decDigits : Nat → Nat → List Char
  | 0, _ => []
  | f + 1, n =>
    if n < 10 then [Char.ofNat (48 + n)]
    else decDigits f (n / 10) ++ [Char.ofNat (48 + n % 10)]

/-- Models Number.prototype.toString for nonnegative integers. -/
def jsNatToString (n : Nat) : String := ⟨decDigits (n + 1) n⟩

/-- Models String.prototype.padStart(6, '0'). -/
def padStart6 (s : String) : String :=
  if s.length ≥ 6 then s else ⟨List.replicate (6 - s.length) '0' ++ s.data⟩

/-! ## One-time code engine (src generateTOTP / verifyTOTP /
generateSecureQRPayload / verifyQRPayload)

The node HMAC (createHmac('sha256', TOTP_SECRET) over the message
secret ++ "-" ++ counter, hex digest) is modelled as the parameter
hmacHex : String → List Nat mapping the message to the digest's hex-digit
values; an actual SHA-256 hex digest always has 64 digits, each < 16. -/

/-- The digest parameter is a valid model of a SHA-256 hex digest. -/
def HmacModel (hmacHex : String → List Nat) : Prop :=
  ∀ s, (hmacHex s).length = 64 ∧ ∀ d ∈ hmacHex s, d < 16

/-- Source constant TOTP_WINDOW = 30000 ms. -/
def TOTP_WINDOW : Int := 30000

/-- generateTOTP(secret, timestamp): the source body starts with
const time = timestamp || Date.now() — a JS truthiness fallback, so an
omitted timestamp and a timestamp of exactly 0 both substitute the current
wall clock, passed here as the clock parameter.  Then counter =
floor(time / 30000); hex HMAC over secret-counter; dynamic offset = last
hex digit; 8 hex digits from position offset*2 reduced mod 1,000,000;
zero-padded to 6 characters (source: parseInt(hash.slice(-1),16),
parseInt(hash.slice(o*2,o*2+8),16), % 1000000, toString().padStart(6,'0')). -/
def generateTOTP (hmacHex : String → List Nat) (clock : Int) (secret : String)
    (timestamp : Int) : String :=
  let time : Int := if timestamp = 0 then clock else timestamp
  let counter : Int := Int.fdiv time TOTP_WINDOW
  let hash := hmacHex (secret ++ "-" ++ toString counter)
  let offset := (hash.getLast?).getD 0
  let num := ((hash.drop (offset * 2)).take 8).foldl (fun a d => a * 16 + d) 0
  padStart6 (jsNatToString (num % 1000000))

/-- verifyTOTP(code, secret, windowSize = 1): recompute the code at
now + i*30000 for i from -windowSize to windowSize and accept on any match.
The Date.now() that generateTOTP would read if a probe timestamp is exactly
0 (the falsy fallback) is the same clock reading, modelled by passing now. -/
def verifyTOTP (hmacHex : String → List Nat) (code : String) (secret : String)
    (windowSize : Nat) (now : Int) : Bool :=
  (List.range (2 * windowSize + 1)).any fun j =>
    generateTOTP hmacHex now secret
      (now + ((j : Int) - (windowSize : Int)) * TOTP_WINDOW) == code

/-- The structured QR payload {rid, uid, cid, code, exp}
(source generateSecureQRPayload JSON object). -/
structure QRPayload where
  rid : String
  uid : String
  cid : String
  code : String
  exp : Int
deriving DecidableEq

/-- generateSecureQRPayload(redemptionId, userId, campaignId): per-redemption
secret is the dash-joined IDs; the source calls generateTOTP(secret) with
the timestamp argument omitted, which takes the same falsy-fallback branch
as a 0 argument and binds the code to the current clock; expiry is
now + 30000; the JSON.stringify/base64 serialisation step is modelled by
the injected enc parameter (never inspected by the engine). -/
def generateSecureQRPayload (hmacHex : String → List Nat) (enc : QRPayload → String)
    (now : Int) (redemptionId userId campaignId : String) : String × Int :=
  let secret := redemptionId ++ "-" ++ userId ++ "-" ++ campaignId
  let totp := generateTOTP hmacHex now secret 0
  let expiresAt := now + TOTP_WINDOW
  (enc ⟨redemptionId, userId, campaignId, totp, expiresAt⟩, expiresAt)

/-- Result of verifyQRPayload (source return shape
{valid, data?, error?}). -/
structure QRVerifyOutcome where
  valid : Bool
  redemptionId : Option String
  userId : Option String
  campaignId : Option String
  error : Option String
deriving DecidableEq

/-- verifyQRPayload(encodedPayload): the whole body runs inside try/catch;
parse models Buffer.from(..,'base64') + JSON.parse and returns none exactly
when that would throw, which the source maps to the single failure
{valid: false, error: 'Invalid QR payload'}.  Order of checks: expiry
(Date.now() > payload.exp) before code verification. -/
def verifyQRPayload (hmacHex : String → List Nat) (parse : String → Option QRPayload)
    (now : Int) (encodedPayload : String) : QRVerifyOutcome :=
  match parse encodedPayload with
  | none => ⟨false, none, none, none, some "Invalid QR payload"⟩
  | some payload =>
    if now > payload.exp then
      ⟨false, none, none, none, some "QR code expired"⟩
    else
      let secret := payload.rid ++ "-" ++ payload.uid ++ "-" ++ payload.cid
      if ¬ (verifyTOTP hmacHex payload.code secret 1 now = true) then
        ⟨false, none, none, none, some "Invalid verification code"⟩
      else
        ⟨true, some payload.rid, some payload.uid, some payload.cid, none⟩

/-! ## Data model (src types: GPSTelemetry, FraudFlag, Campaign,
VerificationRequest, VerificationResult)

FraudFlag's optional structured data payload is not inspected by any part of
the engine or any property below and is omitted from the model; numeric
string interpolation inside flag messages is rendered through jsRound and
jsIntToString (JS Math.round / template literals). -/

inductive Severity
  | LOW | MEDIUM | HIGH | CRITICAL
deriving DecidableEq

inductive FraudFlagType
  | IMPOSSIBLE_SPEED | GPS_SPOOF | ACCURACY_ANOMALY | TIMESTAMP_DRIFT
  | ALTITUDE_MISMATCH | DEVICE_CLONE | BUSINESS_HOURS | REPLAY_ATTACK
deriving DecidableEq

structure FraudFlag where
  type : FraudFlagType
  severity : Severity
  message : String
deriving DecidableEq

structure Coordinates where
  lat : ℚ
  lng : ℚ
deriving DecidableEq

structure BusinessHours where
  dayOfWeek : Nat
  openTime : String
  closeTime : String
deriving DecidableEq

structure Campaign where
  id : String
  coordinates : Coordinates
  radius : ℚ
  dwellTimeRequired : ℚ
  active : Bool
  expiryDate : Int
  businessHours : Option (List BusinessHours)
  timezone : Option String
deriving DecidableEq

structure GPSTelemetry where
  latitude : ℚ
  longitude : ℚ
  accuracy : ℚ
  altitude : Option ℚ
  altitudeAccuracy : Option ℚ
  heading : Option ℚ
  speed : Option ℚ
  timestamp : Int
deriving DecidableEq

structure VerificationRequest where
  sessionId : String
  userId : String
  campaignId : String
  telemetry : List GPSTelemetry
  deviceFingerprint : String
  clientTimestamp : Int
deriving DecidableEq

structure VerificationResult where
  success : Bool
  redemptionId : Option String
  totpCode : Option String
  expiresAt : Option Int
  error : Option String
  fraudFlags : Option (List FraudFlag)
  riskScore : Nat
deriving DecidableEq

/-- JS Math.round: round half toward positive infinity. -/
def jsRound (q : ℚ) : Int := ⌊q + 1 / 2⌋

def jsIntToString (i : Int) : String :=
  if i < 0 then "-" ++ jsNatToString i.natAbs else jsNatToString i.natAbs

/-- Rendering of a JS number in a template literal; exact for integers, which
is the only case any property below touches (schematic otherwise). -/
def renderRat (q : ℚ) : String :=
  if q.den = 1 then jsIntToString q.num
  else jsIntToString q.num ++ "/" ++ jsNatToString q.den

/-! ## Fraud detection engine (src analyzeTelemetry) -/

/-- Stable sort by ascending timestamp, modelling
[...telemetry].sort((a, b) => a.timestamp - b.timestamp).  JS Array sort is
stable, and a stable sort by a total preorder is extensionally unique, so
insertion sort computes exactly the same list. -/
def insertByTs (x : GPSTelemetry) : List GPSTelemetry → List GPSTelemetry
  | [] => [x]
  | y :: ys => if x.timestamp ≤ y.timestamp then x :: y :: ys else y :: insertByTs x ys

def sortByTimestamp : List GPSTelemetry → List GPSTelemetry
  | [] => []
  | x :: xs => insertByTs x (sortByTimestamp xs)

/-- Placeholder sample used with headD/getLastD at spots where the source
indexes a list the surrounding guard has already proved nonempty. -/
def dummySample : GPSTelemetry := ⟨0, 0, 0, none, none, none, none, 0⟩

/-- The impossible-speed loop (source check 1): one pass over consecutive
sorted pairs; pairs with timeDelta ≤ 0 are skipped; speed > 100 m/s adds a
CRITICAL flag and 100 risk, else speed > 35 m/s with distance > 100 m adds a
HIGH flag and 30 risk; every triggering pair contributes. -/
def speedCheck (dist : ℚ → ℚ → ℚ → ℚ → ℚ) :
    List (GPSTelemetry × GPSTelemetry) → List FraudFlag × Nat
  | [] => ([], 0)
  | (prev, curr) :: rest =>
    let d := dist prev.latitude prev.longitude curr.latitude curr.longitude
    let timeDelta : ℚ := ((curr.timestamp - prev.timestamp : Int) : ℚ) / 1000
    let tailRes := speedCheck dist rest
    if timeDelta > 0 then
      let speed := d / timeDelta
      if speed > 100 then
        (⟨FraudFlagType.IMPOSSIBLE_SPEED, Severity.CRITICAL,
          "Teleportation detected: " ++ jsIntToString (jsRound (speed * (18 / 5))) ++
          " km/h between readings"⟩ :: tailRes.1, 100 + tailRes.2)
      else if speed > 35 ∧ d > 100 then
        (⟨FraudFlagType.IMPOSSIBLE_SPEED, Severity.HIGH,
          "Suspicious speed: " ++ jsIntToString (jsRound (speed * (18 / 5))) ++
          " km/h"⟩ :: tailRes.1, 30 + tailRes.2)
      else tailRes
    else tailRes

def qmaxL : List ℚ → ℚ
  | [] => 0
  | x :: xs => xs.foldl max x

def qminL : List ℚ → ℚ
  | [] => 0
  | x :: xs => xs.foldl min x

/-- analyzeTelemetry(telemetry, campaign, userId): the repository's fraud
scoring pipeline.  serverNow models the Date.now() read in the timestamp
drift check.  Returns (flags, riskScore); the final risk score is
Math.min(sum, 100), and the insufficient-data path returns 40 immediately. -/
def analyzeTelemetry (dist : ℚ → ℚ → ℚ → ℚ → ℚ) (serverNow : Int)
    (telemetry : List GPSTelemetry) (campaign : Campaign) (userId : String) :
    List FraudFlag × Nat :=
  if telemetry.length < 2 then
    ([⟨FraudFlagType.GPS_SPOOF, Severity.HIGH,
       "Insufficient telemetry data - possible single-point spoof"⟩], 40)
  else
    let sorted := sortByTimestamp telemetry
    -- 1. impossible speed
    let sr := speedCheck dist (sorted.zip sorted.tail)
    -- 2. accuracy anomaly
    let accuracies := sorted.map (fun t => t.accuracy)
    let avgAccuracy := accuracies.foldl (fun a b => a + b) 0 / (accuracies.length : ℚ)
    let wild := accuracies.any (fun a => decide (|a - avgAccuracy| > 50))
    let ar : List FraudFlag × Nat :=
      if wild then
        ([⟨FraudFlagType.ACCURACY_ANOMALY, Severity.MEDIUM,
           "GPS accuracy fluctuating abnormally"⟩], 20)
      else ([], 0)
    -- 3. perfect coordinates
    let s0 := sorted.headD dummySample
    let perfectCoords := sorted.filter
      (fun t => decide (t.latitude = s0.latitude ∧ t.longitude = s0.longitude))
    let pr : List FraudFlag × Nat :=
      if perfectCoords.length = sorted.length ∧ sorted.length > 5 then
        ([⟨FraudFlagType.GPS_SPOOF, Severity.CRITICAL,
           "Coordinates are perfectly static - definite spoof"⟩], 100)
      else ([], 0)
    -- 4. timestamp drift
    let clientTime := (sorted.getLastD dummySample).timestamp
    let drift := |serverNow - clientTime|
    let dr : List FraudFlag × Nat :=
      if drift > 60000 then
        ([⟨FraudFlagType.TIMESTAMP_DRIFT, Severity.MEDIUM,
           "Client clock drift: " ++ jsIntToString (jsRound ((drift : ℚ) / 1000)) ++ "s"⟩], 25)
      else ([], 0)
    -- 5. altitude consistency
    let altitudes := sorted.filterMap (fun t => t.altitude)
    let altVariance := qmaxL altitudes - qminL altitudes
    let hr : List FraudFlag × Nat :=
      if altitudes.length > 3 ∧ altVariance > 500 then
        ([⟨FraudFlagType.ALTITUDE_MISMATCH, Severity.MEDIUM,
           "Altitude variance of " ++ jsIntToString (jsRound altVariance) ++
           "m is suspicious"⟩], 15)
      else ([], 0)
    -- 6. dwell time
    let timeInZone := sorted.filter (fun t =>
      decide (dist t.latitude t.longitude campaign.coordinates.lat campaign.coordinates.lng ≤
        campaign.radius + 20))
    let actualDwellTime : ℚ :=
      if timeInZone.length > 1 then
        (((timeInZone.getLastD dummySample).timestamp -
          (timeInZone.headD dummySample).timestamp : Int) : ℚ) / 1000
      else 0
    let wr : List FraudFlag × Nat :=
      if actualDwellTime < campaign.dwellTimeRequired * (4 / 5) then
        ([⟨FraudFlagType.GPS_SPOOF, Severity.HIGH,
           "Dwell time " ++ jsIntToString (jsRound actualDwellTime) ++
           "s is below required " ++ renderRat campaign.dwellTimeRequired ++ "s"⟩], 35)
      else ([], 0)
    (sr.1 ++ ar.1 ++ pr.1 ++ dr.1 ++ hr.1 ++ wr.1,
     min (sr.2 + ar.2 + pr.2 + dr.2 + hr.2 + wr.2) 100)

/-! ## Replay and rate-limit guard (src usedSessionIds / recentRedemptions /
cleanupExpiredSessions) and the verification orchestrator
(src verifyRedemption) -/

def CLEANUP_INTERVAL : Int := 5 * 60 * 1000

def SESSION_TTL : Int := 24 * 60 * 60 * 1000

/-- The module-level mutable maps, passed explicitly:
usedSessionIds : sessionId → timestamp,
recentRedemptions : userId-campaignId → timestamp, plus lastCleanup. -/
structure GuardState where
  usedSessionIds : List (String × Int)
  recentRedemptions : List (String × Int)
  lastCleanup : Int
deriving DecidableEq

/-- Map.get / Map.has: first entry with the given key. -/
def mapLookup : List (String × Int) → String → Option Int
  | [], _ => none
  | (k, v) :: rest, key => if k = key then some v else mapLookup rest key

/-- Map.set: update the existing entry in place, else append. -/
def mapSet (m : List (String × Int)) (key : String) (v : Int) : List (String × Int) :=
  if (mapLookup m key).isSome then
    m.map (fun p => if p.1 = key then (key, v) else p)
  else m ++ [(key, v)]

/-- cleanupExpiredSessions(): no-op unless CLEANUP_INTERVAL has elapsed since
lastCleanup; otherwise delete every entry older than SESSION_TTL from both
maps and stamp lastCleanup = now. -/
def cleanupExpiredSessions (now : Int) (st : GuardState) : GuardState :=
  if now - st.lastCleanup < CLEANUP_INTERVAL then st
  else
    ⟨st.usedSessionIds.filter (fun p => decide (¬ (now - p.2 > SESSION_TTL))),
     st.recentRedemptions.filter (fun p => decide (¬ (now - p.2 > SESSION_TTL))),
     now⟩

/-- External effects of verifyRedemption, injected as parameters:
dist is the haversine (transcendental); hmacHex the HMAC-SHA256 hex digest;
enc the JSON/base64 serialisation of the QR payload; biz models
isWithinBusinessHours (its output depends on a timezone database, which is
outside the engine); randHex the randomBytes(8).toString('hex') suffix. -/
structure VerifyDeps where
  dist : ℚ → ℚ → ℚ → ℚ → ℚ
  hmacHex : String → List Nat
  enc : QRPayload → String
  biz : Int → List BusinessHours → Option String → Bool × Option String
  randHex : String

/-- JS `x || 'fallback'` on an optional string ('' is falsy). -/
def jsOrElse (o : Option String) (d : String) : String :=
  match o with
  | none => d
  | some s => if s = "" then d else s

/-- Steps 4-6 of verifyRedemption: telemetry analysis, the riskScore ≥ 70
decision, and on success recording both guard maps and issuing the QR
payload (redemptionId = r_ + Date.now() + _ + random hex). -/
def verifyCore (deps : VerifyDeps) (now : Int) (request : VerificationRequest)
    (campaign : Campaign) (st1 : GuardState) : VerificationResult × GuardState :=
  let res := analyzeTelemetry deps.dist now request.telemetry campaign request.userId
  if res.2 ≥ 70 then
    (⟨false, none, none, none, some "Verification failed: Suspicious activity detected",
      some res.1, res.2⟩, st1)
  else
    let userCampaignKey := request.userId ++ "-" ++ request.campaignId
    let used2 := mapSet st1.usedSessionIds request.sessionId now
    let recent2 := mapSet st1.recentRedemptions userCampaignKey now
    let redemptionId := "r_" ++ jsIntToString now ++ "_" ++ deps.randHex
    let qr := generateSecureQRPayload deps.hmacHex deps.enc now redemptionId
      request.userId request.campaignId
    (⟨true, some redemptionId, some qr.1, some qr.2, none,
      (if res.1.length > 0 then some res.1 else none), res.2⟩,
     ⟨used2, recent2, st1.lastCleanup⟩)

/-- verifyRedemption(request, campaign): opportunistic cleanup, then replay
check, rate-limit check (note the JS truthiness guard: a stored timestamp of
exactly 0 is falsy and skips the rate limit), optional business-hours check,
then verifyCore.  Returns the result together with the updated guard state. -/
def verifyRedemption (deps : VerifyDeps) (now : Int) (request : VerificationRequest)
    (campaign : Campaign) (st : GuardState) : VerificationResult × GuardState :=
  let st1 := cleanupExpiredSessions now st
  if (mapLookup st1.usedSessionIds request.sessionId).isSome then
    (⟨false, none, none, none, some "Session already used - possible replay attack",
      some [⟨FraudFlagType.REPLAY_ATTACK, Severity.CRITICAL,
            "Duplicate session ID detected"⟩], 100⟩, st1)
  else
    let userCampaignKey := request.userId ++ "-" ++ request.campaignId
    let lastRedemption := mapLookup st1.recentRedemptions userCampaignKey
    let rateHit := match lastRedemption with
      | none => false
      | some v => decide (v ≠ 0) && decide (now - v < 24 * 60 * 60 * 1000)
    if rateHit then
      (⟨false, none, none, none, some "Already redeemed this campaign in the last 24 hours",
        some [], 0⟩, st1)
    else
      match campaign.businessHours with
      | none => verifyCore deps now request campaign st1
      | some hs =>
        if hs.length > 0 then
          let hoursCheck := deps.biz request.clientTimestamp hs campaign.timezone
          if hoursCheck.1 then verifyCore deps now request campaign st1
          else
            (⟨false, none, none, none, hoursCheck.2,
              some [⟨FraudFlagType.BUSINESS_HOURS, Severity.HIGH,
                    jsOrElse hoursCheck.2 "Outside business hours"⟩], 50⟩, st1)
        else verifyCore deps now request campaign st1

/-! ## Concrete instances used by the closed corollaries below -/

/-- A trivially valid model of the HMAC hex digest (64 zero hex digits). -/
def hmacZero : String → List Nat := fun _ => List.replicate 64 0

/-- A valid digest model that, like the real HMAC, distinguishes the
counter-0 message of the secret s from every other message. -/
def hmacOne : String → List Nat := fun s =>
  if s = "s-0" then List.replicate 64 0 else List.replicate 64 1

def depsZero : VerifyDeps :=
  ⟨fun _ _ _ _ => 0, hmacZero, fun _ => "", fun _ _ _ => (true, none), "ab"⟩

def sampleA : GPSTelemetry := ⟨0, 0, 10, none, none, none, none, 40000⟩

def sampleB : GPSTelemetry := ⟨0, 0, 10, none, none, none, none, 100000⟩

def requestZero : VerificationRequest := ⟨"s1", "u", "c", [sampleA, sampleB], "d", 100000⟩

def campaignZero : Campaign := ⟨"c", ⟨0, 0⟩, 10, 15, true, 1000000000000, none, none⟩

def guardZero : GuardState := ⟨[], [], 0⟩

def guardReplay : GuardState := ⟨[("s1", 90000)], [], 0⟩

def guardRate : GuardState := ⟨[], [("u-c", 50000)], 0⟩

def parseNone : String → Option QRPayload := fun _ => none

/-- The target coordinate lies inside the current interval bounds. -/
def InBox (lat lng : ℚ) (box : GeoBox) : Prop :=
  box.minLat ≤ lat ∧ lat ≤ box.maxLat ∧ box.minLng ≤ lng ∧ lng ≤ box.maxLng

/-! ## General lemmas about the embedding -/

theorem analyzeTelemetry_riskScore_le (dist : ℚ → ℚ → ℚ → ℚ → ℚ) (serverNow : Int)
    (telemetry : List GPSTelemetry) (campaign : Campaign) (userId : String) :
    (analyzeTelemetry dist serverNow telemetry campaign userId).2 ≤ 100 := by
  unfold analyzeTelemetry
  split
  · norm_num
  · dsimp only
    exact Nat.min_le_right _ _

theorem verifyCore_riskScore_le (deps : VerifyDeps) (now : Int)
    (request : VerificationRequest) (campaign : Campaign) (st1 : GuardState) :
    (verifyCore deps now request campaign st1).1.riskScore ≤ 100 := by
  unfold verifyCore
  dsimp only
  split
  · exact analyzeTelemetry_riskScore_le _ _ _ _ _
  · exact analyzeTelemetry_riskScore_le _ _ _ _ _

/-! ## Claim theorems: fraud engine -/

/-- C5: with fewer than 2 telemetry samples, analyzeTelemetry returns
riskScore exactly 40 together with exactly one GPS_SPOOF flag (the
single-point-spoof message) and runs no other check: the result is exactly
this pair, for every distance function, clock value, campaign and user. -/
theorem analyzeTelemetry_insufficientData (dist : ℚ → ℚ → ℚ → ℚ → ℚ) (serverNow : Int)
    (telemetry : List GPSTelemetry) (campaign : Campaign) (userId : String)
    (h : telemetry.length < 2) :
    analyzeTelemetry dist serverNow telemetry campaign userId =
      ([⟨FraudFlagType.GPS_SPOOF, Severity.HIGH,
         "Insufficient telemetry data - possible single-point spoof"⟩], 40) := by
  unfold analyzeTelemetry
  rw [if_pos h]

/-- Closed instance of analyzeTelemetry_insufficientData at the empty
telemetry list. -/
theorem analyzeTelemetry_insufficientData_witness :
    ([] : List GPSTelemetry).length < 2 ∧
    analyzeTelemetry depsZero.dist 0 [] campaignZero "u" =
      ([⟨FraudFlagType.GPS_SPOOF, Severity.HIGH,
         "Insufficient telemetry data - possible single-point spoof"⟩], 40) :=
  ⟨by decide, analyzeTelemetry_insufficientData _ _ _ _ _ (by decide)⟩

/-- C2: the risk score produced by analyzeTelemetry, and the riskScore field
of every VerificationResult produced by verifyRedemption, is at most 100;
being a Nat in this model it is a nonnegative integer, so it lies in
[0, 100].  The analyzer computes min(sum of increments, 100) by definition. -/
theorem riskScore_in_range (dist : ℚ → ℚ → ℚ → ℚ → ℚ) (serverNow : Int)
    (telemetry : List GPSTelemetry) (campaign : Campaign) (userId : String)
    (deps : VerifyDeps) (now : Int) (request : VerificationRequest)
    (campaign2 : Campaign) (st : GuardState) :
    (analyzeTelemetry dist serverNow telemetry campaign userId).2 ≤ 100 ∧
    (verifyRedemption deps now request campaign2 st).1.riskScore ≤ 100 := by
  refine ⟨analyzeTelemetry_riskScore_le _ _ _ _ _, ?_⟩
  unfold verifyRedemption
  dsimp only
  split
  · norm_num
  · split
    · norm_num
    · split
      · exact verifyCore_riskScore_le _ _ _ _ _
      · split
        · split
          · exact verifyCore_riskScore_le _ _ _ _ _
          · norm_num
        · exact verifyCore_riskScore_le _ _ _ _ _

/-! ## Claim theorems: QR payload validation -/

/-- C6: verifyQRPayload never throws (it is a total function in this model;
the parse parameter returns none exactly when base64/JSON decoding would
throw, and that single case maps to the one malformed-payload failure); when
parsing succeeds, the expiry check (now past exp) runs first, then the code
check against the secret reconstructed from redemptionId-userId-campaignId,
and on full success the original three IDs are returned. -/
theorem verifyQRPayload_characterisation (hmacHex : String → List Nat)
    (parse : String → Option QRPayload) (now : Int) (p : String) :
    (parse p = none →
      verifyQRPayload hmacHex parse now p =
        ⟨false, none, none, none, some "Invalid QR payload"⟩) ∧
    (∀ pl, parse p = some pl → now > pl.exp →
      verifyQRPayload hmacHex parse now p =
        ⟨false, none, none, none, some "QR code expired"⟩) ∧
    (∀ pl, parse p = some pl → ¬ (now > pl.exp) →
      verifyTOTP hmacHex pl.code (pl.rid ++ "-" ++ pl.uid ++ "-" ++ pl.cid) 1 now = false →
      verifyQRPayload hmacHex parse now p =
        ⟨false, none, none, none, some "Invalid verification code"⟩) ∧
    (∀ pl, parse p = some pl → ¬ (now > pl.exp) →
      verifyTOTP hmacHex pl.code (pl.rid ++ "-" ++ pl.uid ++ "-" ++ pl.cid) 1 now = true →
      verifyQRPayload hmacHex parse now p =
        ⟨true, some pl.rid, some pl.uid, some pl.cid, none⟩) := by
  refine ⟨?_, ?_, ?_, ?_⟩
  · intro h
    unfold verifyQRPayload
    rw [h]
  · intro pl h hexp
    unfold verifyQRPayload
    rw [h]
    dsimp only
    rw [if_pos hexp]
  · intro pl h hexp hv
    unfold verifyQRPayload
    rw [h]
    dsimp only
    rw [if_neg hexp, if_pos (by simp [hv])]
  · intro pl h hexp hv
    unfold verifyQRPayload
    rw [h]
    dsimp only
    rw [if_neg hexp, if_neg (by simp [hv])]

/-- Closed instance of verifyQRPayload_characterisation on an unparseable
payload: the generic catch maps it to the malformed failure. -/
theorem verifyQRPayload_characterisation_witness :
    parseNone "x" = none ∧
    verifyQRPayload hmacZero parseNone 0 "x" =
      ⟨false, none, none, none, some "Invalid QR payload"⟩ :=
  ⟨rfl, (verifyQRPayload_characterisation hmacZero parseNone 0 "x").1 rfl⟩

/-! ## Claim theorems: one-time code engine -/

theorem ofNat_digit_isDigit (m : Nat) (h : m < 10) :
    (Char.ofNat (48 + m)).isDigit = true := by
  interval_cases m <;> decide

theorem decDigits_length_le : ∀ (f n k : Nat), n < 10 ^ k → 0 < k →
    (decDigits f n).length ≤ k := by
  intro f
  induction f with
  | zero => intro n k _ hk; simp [decDigits]
  | succ f ih =>
    intro n k hn hk
    unfold decDigits
    split
    · simpa using hk
    · rename_i h10
      have hk2 : 2 ≤ k := by
        rcases Nat.lt_or_ge k 2 with hlt | hge
        · interval_cases k
          exact absurd hn (by simpa using h10)
        · exact hge
      have hdiv : n / 10 < 10 ^ (k - 1) := by
        rw [Nat.div_lt_iff_lt_mul (by norm_num)]
        calc n < 10 ^ k := hn
          _ = 10 ^ (k - 1) * 10 := by
            rw [← Nat.pow_succ]
            congr 1
            omega
      have := ih (n / 10) (k - 1) hdiv (by omega)
      simp only [List.length_append, List.length_cons, List.length_nil]
      omega

theorem decDigits_isDigit : ∀ (f n : Nat), ∀ c ∈ decDigits f n, c.isDigit = true := by
  intro f
  induction f with
  | zero => intro n c hc; simp [decDigits] at hc
  | succ f ih =>
    intro n c hc
    unfold decDigits at hc
    split at hc
    · rename_i h10
      simp only [List.mem_singleton] at hc
      subst hc
      exact ofNat_digit_isDigit n h10
    · rw [List.mem_append] at hc
      rcases hc with hc | hc
      · exact ih _ _ hc
      · simp only [List.mem_singleton] at hc
        subst hc
        exact ofNat_digit_isDigit (n % 10) (Nat.mod_lt _ (by norm_num))

/-- The reduced-and-padded code is always 6 decimal digits. -/
theorem pad6_shape (n : Nat) :
    (padStart6 (jsNatToString (n % 1000000))).length = 6 ∧
    ∀ c ∈ (padStart6 (jsNatToString (n % 1000000))).data, c.isDigit = true := by
  have hmod : n % 1000000 < 10 ^ 6 := by
    have h6 : (1000000 : Nat) = 10 ^ 6 := by norm_num
    rw [← h6]
    exact Nat.mod_lt _ (by norm_num)
  have hlen : (jsNatToString (n % 1000000)).length ≤ 6 := by
    unfold jsNatToString
    show (decDigits _ _).length ≤ 6
    exact decDigits_length_le _ _ 6 hmod (by norm_num)
  constructor
  · unfold padStart6
    split
    · omega
    · show (List.replicate (6 - (jsNatToString (n % 1000000)).length) '0' ++
        (jsNatToString (n % 1000000)).data).length = 6
      rw [List.length_append, List.length_replicate]
      have : (jsNatToString (n % 1000000)).data.length =
        (jsNatToString (n % 1000000)).length := rfl
      omega
  · intro c hc
    unfold padStart6 at hc
    split at hc
    · exact decDigits_isDigit _ _ c hc
    · show c.isDigit = true
      have hc2 : c ∈ List.replicate (6 - (jsNatToString (n % 1000000)).length) '0' ++
        (jsNatToString (n % 1000000)).data := hc
      rw [List.mem_append] at hc2
      rcases hc2 with hc2 | hc2
      · rw [List.eq_of_mem_replicate hc2]
        decide
      · exact decDigits_isDigit _ _ c hc2

/-- The code string is always 6 zero-padded decimal digits, for every clock
and timestamp (either branch of the falsy fallback). -/
theorem generateTOTP_shape (hmacHex : String → List Nat) (clock : Int) (secret : String)
    (timestamp : Int) :
    (generateTOTP hmacHex clock secret timestamp).length = 6 ∧
    ∀ c ∈ (generateTOTP hmacHex clock secret timestamp).data, c.isDigit = true := by
  unfold generateTOTP
  dsimp only
  exact pad6_shape _

/-- Away from the falsy timestamp 0, generateTOTP does not read the clock:
it is a function of (secret, timestamp) alone. -/
theorem generateTOTP_no_clock (hmacHex : String → List Nat) (clock1 clock2 : Int)
    (secret : String) (timestamp : Int) (ht : timestamp ≠ 0) :
    generateTOTP hmacHex clock1 secret timestamp =
      generateTOTP hmacHex clock2 secret timestamp := by
  unfold generateTOTP
  simp only [if_neg ht]

/-- Acceptance window of verifyTOTP at windowSize = 1, with the clock that
a falsy probe timestamp falls back to threaded as now. -/
theorem verifyTOTP_window_iff (hmacHex : String → List Nat) (code secret : String)
    (now : Int) :
    verifyTOTP hmacHex code secret 1 now = true ↔
    ∃ k : Int, -1 ≤ k ∧ k ≤ 1 ∧
      code = generateTOTP hmacHex now secret (now + k * 30000) := by
  unfold verifyTOTP
  rw [List.any_eq_true]
  constructor
  · rintro ⟨j, hj, hg⟩
    rw [List.mem_range] at hj
    rw [beq_iff_eq] at hg
    refine ⟨(j : Int) - 1, by omega, by omega, ?_⟩
    simp only [TOTP_WINDOW, Nat.cast_one] at hg
    exact hg.symm
  · rintro ⟨k, hk1, hk2, hcode⟩
    refine ⟨(k + 1).toNat, ?_, ?_⟩
    · rw [List.mem_range]
      omega
    · rw [beq_iff_eq]
      have harg : ((((k + 1).toNat : Nat) : Int) - ((1 : Nat) : Int)) = k := by omega
      simp only [TOTP_WINDOW, harg]
      exact hcode.symm

/-- C3 (amended): the source starts generateTOTP with
const time = timestamp || Date.now(), so a timestamp of exactly 0 (or an
omitted one) is replaced by the current clock.  Away from that falsy value
GenerateCode is a deterministic function of (secret, t); its output is
always a zero-padded 6-digit decimal string; VerifyCode with window 1 at
time now accepts a code exactly when it equals GenerateCode(secret,
now + k*30000) for some k in {-1, 0, 1}, where a probe timestamp of
exactly 0 falls back to the same clock now; and the code generated at now
verifies at now.  The HmacModel hypothesis records that the digest
parameter models a SHA-256 hex digest (64 hex digits). -/
theorem totp_generate_verify (hmacHex : String → List Nat) (secret code : String)
    (now clock1 clock2 t : Int) (hm : HmacModel hmacHex) :
    ((generateTOTP hmacHex clock1 secret now).length = 6 ∧
      ∀ c ∈ (generateTOTP hmacHex clock1 secret now).data, c.isDigit = true) ∧
    (t ≠ 0 → generateTOTP hmacHex clock1 secret t = generateTOTP hmacHex clock2 secret t) ∧
    (verifyTOTP hmacHex code secret 1 now = true ↔
      ∃ k : Int, -1 ≤ k ∧ k ≤ 1 ∧
        code = generateTOTP hmacHex now secret (now + k * 30000)) ∧
    verifyTOTP hmacHex (generateTOTP hmacHex now secret now) secret 1 now = true := by
  refine ⟨generateTOTP_shape hmacHex clock1 secret now,
    generateTOTP_no_clock hmacHex clock1 clock2 secret t,
    verifyTOTP_window_iff hmacHex code secret now, ?_⟩
  rw [verifyTOTP_window_iff]
  refine ⟨0, by norm_num, by norm_num, ?_⟩
  norm_num

/-- Counterexample to C3 as frozen: with a valid digest model that (like
the real HMAC) separates the counter-0 message from the others,
generateTOTP at timestamp 0 depends on the clock — it is not a
deterministic function of (secret, t) — and a code generated 30 seconds
before now = 30000 with the falsy timestamp argument 0 is rejected, even
though the claim promises the k = -1 probe accepts it: that probe computes
now - 30000 = 0, which the fallback turns back into now. -/
theorem totp_zero_fallback_refutes :
    HmacModel hmacOne ∧
    generateTOTP hmacOne 0 "s" 0 ≠ generateTOTP hmacOne 30000 "s" 0 ∧
    verifyTOTP hmacOne (generateTOTP hmacOne 1 "s" 0) "s" 1 30000 = false := by
  refine ⟨?_, by decide, by decide⟩
  intro s
  unfold hmacOne
  split
  · exact ⟨by simp, fun d hd => by rw [List.eq_of_mem_replicate hd]; norm_num⟩
  · exact ⟨by simp, fun d hd => by rw [List.eq_of_mem_replicate hd]; norm_num⟩

/-- Closed instance of totp_generate_verify: the all-zero digest model is a
valid HmacModel, a code generated at clock 0 with timestamp 0 verifies at
time 0, its length is 6, and the clock-independence conjunct holds at the
nonzero timestamp 30000. -/
theorem totp_generate_verify_witness :
    HmacModel hmacZero ∧
    verifyTOTP hmacZero (generateTOTP hmacZero 0 "s" 0) "s" 1 0 = true ∧
    (generateTOTP hmacZero 0 "s" 0).length = 6 ∧
    generateTOTP hmacZero 0 "s" 30000 = generateTOTP hmacZero 99 "s" 30000 := by
  have hm : HmacModel hmacZero := by
    intro s
    refine ⟨by simp [hmacZero], ?_⟩
    intro d hd
    simp only [hmacZero] at hd
    rw [List.eq_of_mem_replicate hd]
    norm_num
  exact ⟨hm,
    (totp_generate_verify hmacZero "s" (generateTOTP hmacZero 0 "s" 0) 0 0 0 0 hm).2.2.2,
    (totp_generate_verify hmacZero "s" (generateTOTP hmacZero 0 "s" 0) 0 0 0 0 hm).1.1,
    (totp_generate_verify hmacZero "s" "x" 0 0 99 30000 hm).2.1 (by norm_num)⟩

/-! ## Claim theorems: replay and rate-limit guard -/

theorem mapLookup_filter_some : ∀ (m : List (String × Int)) (k : String) (v : Int)
    (p : String × Int → Bool), mapLookup m k = some v → p (k, v) = true →
    mapLookup (m.filter p) k = some v := by
  intro m
  induction m with
  | nil => intro k v p h _; simp [mapLookup] at h
  | cons hd tl ih =>
    intro k v p h hp
    obtain ⟨k1, v1⟩ := hd
    unfold mapLookup at h
    by_cases hk : k1 = k
    · rw [if_pos hk] at h
      injection h with hv
      subst hk
      subst hv
      simp only [List.filter_cons, hp, if_true]
      simp [mapLookup]
    · rw [if_neg hk] at h
      rcases hpc : p (k1, v1) with _ | _
      · simp only [List.filter_cons, hpc]
        simp only [Bool.false_eq_true, if_false]
        exact ih k v p h hp
      · simp only [List.filter_cons, hpc, if_true]
        unfold mapLookup
        rw [if_neg hk]
        exact ih k v p h hp

theorem mapLookup_filter_none : ∀ (m : List (String × Int)) (k : String)
    (p : String × Int → Bool), mapLookup m k = none →
    mapLookup (m.filter p) k = none := by
  intro m
  induction m with
  | nil => intro k p _; simp [mapLookup]
  | cons hd tl ih =>
    intro k p h
    obtain ⟨k1, v1⟩ := hd
    unfold mapLookup at h
    by_cases hk : k1 = k
    · rw [if_pos hk] at h
      exact absurd h (by simp)
    · rw [if_neg hk] at h
      rcases hpc : p (k1, v1) with _ | _
      · simp only [List.filter_cons, hpc]
        simp only [Bool.false_eq_true, if_false]
        exact ih k p h
      · simp only [List.filter_cons, hpc, if_true]
        unfold mapLookup
        rw [if_neg hk]
        exact ih k p h

theorem mapLookup_filter_isSome : ∀ (m : List (String × Int)) (k : String)
    (p : String × Int → Bool), (mapLookup (m.filter p) k).isSome = true →
    (mapLookup m k).isSome = true := by
  intro m
  induction m with
  | nil => intro k p h; simp [mapLookup] at h
  | cons hd tl ih =>
    intro k p h
    obtain ⟨k1, v1⟩ := hd
    unfold mapLookup
    by_cases hk : k1 = k
    · rw [if_pos hk]
      rfl
    · rw [if_neg hk]
      rcases hpc : p (k1, v1) with _ | _
      · rw [List.filter_cons] at h
        simp only [hpc, Bool.false_eq_true, if_false] at h
        exact ih k p h
      · rw [List.filter_cons] at h
        simp only [hpc, if_true] at h
        unfold mapLookup at h
        rw [if_neg hk] at h
        exact ih k p h

theorem mapLookup_map_update : ∀ (m : List (String × Int)) (k : String) (v : Int),
    (mapLookup m k).isSome = true →
    mapLookup (m.map fun p => if p.1 = k then (k, v) else p) k = some v := by
  intro m
  induction m with
  | nil => intro k v h; simp [mapLookup] at h
  | cons hd tl ih =>
    intro k v h
    obtain ⟨k1, v1⟩ := hd
    by_cases hk : k1 = k
    · simp only [List.map_cons, hk, if_true]
      simp [mapLookup]
    · simp only [List.map_cons]
      rw [show ((if (k1, v1).1 = k then (k, v) else (k1, v1)) = (k1, v1)) from if_neg hk]
      unfold mapLookup
      rw [if_neg hk]
      apply ih
      unfold mapLookup at h
      rw [if_neg hk] at h
      exact h

theorem mapLookup_append_self : ∀ (m : List (String × Int)) (k : String) (v : Int),
    mapLookup m k = none → mapLookup (m ++ [(k, v)]) k = some v := by
  intro m
  induction m with
  | nil => intro k v _; simp [mapLookup]
  | cons hd tl ih =>
    intro k v h
    obtain ⟨k1, v1⟩ := hd
    unfold mapLookup at h
    rw [List.cons_append]
    unfold mapLookup
    by_cases hk : k1 = k
    · rw [if_pos hk] at h
      exact absurd h (by simp)
    · rw [if_neg hk] at h
      rw [if_neg hk]
      exact ih k v h

theorem mapLookup_mapSet_self (m : List (String × Int)) (k : String) (v : Int) :
    mapLookup (mapSet m k v) k = some v := by
  unfold mapSet
  split
  · rename_i h
    exact mapLookup_map_update m k v h
  · rename_i h
    apply mapLookup_append_self
    rcases hl : mapLookup m k with _ | w
    · rfl
    · rw [hl] at h
      exact absurd rfl h

/-- Branch analysis of verifyRedemption: every rejecting branch returns the
post-cleanup state unchanged, and the success branch returns it with exactly
the two mapSet insertions at the current time. -/
theorem verifyRedemption_state_split (deps : VerifyDeps) (now : Int)
    (request : VerificationRequest) (campaign : Campaign) (st : GuardState) :
    ((verifyRedemption deps now request campaign st).1.success = false →
      (verifyRedemption deps now request campaign st).2 =
        cleanupExpiredSessions now st) ∧
    ((verifyRedemption deps now request campaign st).1.success = true →
      (verifyRedemption deps now request campaign st).2 =
        ⟨mapSet (cleanupExpiredSessions now st).usedSessionIds request.sessionId now,
         mapSet (cleanupExpiredSessions now st).recentRedemptions
           (request.userId ++ "-" ++ request.campaignId) now,
         (cleanupExpiredSessions now st).lastCleanup⟩) := by
  unfold verifyRedemption verifyCore
  dsimp only
  split
  · exact ⟨fun _ => rfl, fun h => by simp at h⟩
  · split
    · exact ⟨fun _ => rfl, fun h => by simp at h⟩
    · split
      · split
        · exact ⟨fun _ => rfl, fun h => by simp at h⟩
        · exact ⟨fun h => by simp at h, fun _ => rfl⟩
      · split
        · split
          · split
            · exact ⟨fun _ => rfl, fun h => by simp at h⟩
            · exact ⟨fun h => by simp at h, fun _ => rfl⟩
          · exact ⟨fun _ => rfl, fun h => by simp at h⟩
        · split
          · exact ⟨fun _ => rfl, fun h => by simp at h⟩
          · exact ⟨fun h => by simp at h, fun _ => rfl⟩

/-- C9: the guard maps are written only on ultimate success.  Every
rejecting path (replay, rate limit, business hours, riskScore at or above
70) leaves both maps exactly as the opportunistic cleanup left them — and
the cleanup itself only ever deletes entries, never adds one — while a
successful call inserts the sessionId and the userId-campaignId key into
the two maps with the current timestamp. -/
theorem guard_maps_written_only_on_success (deps : VerifyDeps) (now : Int)
    (request : VerificationRequest) (campaign : Campaign) (st : GuardState) :
    ((verifyRedemption deps now request campaign st).1.success = false →
      (verifyRedemption deps now request campaign st).2.usedSessionIds =
        (cleanupExpiredSessions now st).usedSessionIds ∧
      (verifyRedemption deps now request campaign st).2.recentRedemptions =
        (cleanupExpiredSessions now st).recentRedemptions) ∧
    ((verifyRedemption deps now request campaign st).1.success = true →
      (verifyRedemption deps now request campaign st).2.usedSessionIds =
        mapSet (cleanupExpiredSessions now st).usedSessionIds request.sessionId now ∧
      (verifyRedemption deps now request campaign st).2.recentRedemptions =
        mapSet (cleanupExpiredSessions now st).recentRedemptions
          (request.userId ++ "-" ++ request.campaignId) now) ∧
    (∀ k, (mapLookup (cleanupExpiredSessions now st).usedSessionIds k).isSome = true →
      (mapLookup st.usedSessionIds k).isSome = true) ∧
    (∀ k, (mapLookup (cleanupExpiredSessions now st).recentRedemptions k).isSome = true →
      (mapLookup st.recentRedemptions k).isSome = true) := by
  refine ⟨?_, ?_, ?_, ?_⟩
  · intro h
    rw [(verifyRedemption_state_split deps now request campaign st).1 h]
    exact ⟨rfl, rfl⟩
  · intro h
    rw [(verifyRedemption_state_split deps now request campaign st).2 h]
    exact ⟨rfl, rfl⟩
  · intro k hk
    unfold cleanupExpiredSessions at hk
    split at hk
    · exact hk
    · exact mapLookup_filter_isSome _ _ _ hk
  · intro k hk
    unfold cleanupExpiredSessions at hk
    split at hk
    · exact hk
    · exact mapLookup_filter_isSome _ _ _ hk

/-- Closed instance of guard_maps_written_only_on_success: a replay
rejection leaves both guard maps untouched. -/
theorem guard_maps_written_only_on_success_witness :
    (verifyRedemption depsZero 100000 requestZero campaignZero guardReplay).1.success = false ∧
    (verifyRedemption depsZero 100000 requestZero campaignZero guardReplay).2.usedSessionIds =
      (cleanupExpiredSessions 100000 guardReplay).usedSessionIds ∧
    (verifyRedemption depsZero 100000 requestZero campaignZero guardReplay).2.recentRedemptions =
      (cleanupExpiredSessions 100000 guardReplay).recentRedemptions := by
  have hfail : (verifyRedemption depsZero 100000 requestZero campaignZero guardReplay).1.success
      = false := by
    unfold verifyRedemption cleanupExpiredSessions
    norm_num [CLEANUP_INTERVAL, guardReplay, requestZero, mapLookup]
  have := (guard_maps_written_only_on_success depsZero 100000 requestZero campaignZero
    guardReplay).1 hfail
  exact ⟨hfail, this.1, this.2⟩

/-- C4: if a redemption for (userId, campaignId) is on record with a
timestamp less than 24 hours old (and positive, as every recorded
Date.now() is), verifyRedemption rejects with success = false, riskScore 0
and an empty fraud-flag list, even though the sessionId is fresh — the
empty (rather than absent or populated) flag list distinguishes this policy
rejection from a fraud rejection. -/
theorem rateLimit_rejection (deps : VerifyDeps) (now : Int)
    (request : VerificationRequest) (campaign : Campaign) (st : GuardState) (last : Int)
    (hsid : mapLookup st.usedSessionIds request.sessionId = none)
    (hlast : mapLookup st.recentRedemptions
      (request.userId ++ "-" ++ request.campaignId) = some last)
    (hpos : 0 < last)
    (hwin : now - last < 24 * 60 * 60 * 1000) :
    (verifyRedemption deps now request campaign st).1 =
      ⟨false, none, none, none,
       some "Already redeemed this campaign in the last 24 hours", some [], 0⟩ := by
  have hsid2 : mapLookup (cleanupExpiredSessions now st).usedSessionIds
      request.sessionId = none := by
    unfold cleanupExpiredSessions
    split
    · exact hsid
    · exact mapLookup_filter_none _ _ _ hsid
  have hlast2 : mapLookup (cleanupExpiredSessions now st).recentRedemptions
      (request.userId ++ "-" ++ request.campaignId) = some last := by
    unfold cleanupExpiredSessions
    split
    · exact hlast
    · exact mapLookup_filter_some _ _ _ _ hlast
        (decide_eq_true (by simp only [SESSION_TTL]; omega))
  unfold verifyRedemption
  dsimp only
  rw [if_neg (by rw [hsid2]; simp)]
  rw [hlast2]
  dsimp only
  rw [if_pos (by simp only [Bool.and_eq_true, decide_eq_true_eq]; omega)]

/-- Closed instance of rateLimit_rejection: a fresh sessionId with a
50-second-old redemption record for the same user and campaign. -/
theorem rateLimit_rejection_witness :
    mapLookup guardRate.usedSessionIds requestZero.sessionId = none ∧
    mapLookup guardRate.recentRedemptions
      (requestZero.userId ++ "-" ++ requestZero.campaignId) = some 50000 ∧
    (verifyRedemption depsZero 100000 requestZero campaignZero guardRate).1 =
      ⟨false, none, none, none,
       some "Already redeemed this campaign in the last 24 hours", some [], 0⟩ := by
  refine ⟨rfl, rfl, ?_⟩
  exact rateLimit_rejection depsZero 100000 requestZero campaignZero guardRate 50000
    rfl rfl (by norm_num) (by norm_num)

/-- C1: a sessionId recorded by an earlier successful verifyRedemption call
is rejected on reuse with success = false, riskScore 100 and exactly one
CRITICAL REPLAY_ATTACK flag, regardless of the second call's telemetry,
campaign or injected dependencies (the conclusion does not mention them, so
no fraud analysis can influence it — the replay check short-circuits first).
The freshness bound says the retention sweep has not yet expired the
record (entries are swept only after SESSION_TTL = 24 h). -/
theorem replay_rejected_after_success (deps1 deps2 : VerifyDeps) (t1 t2 : Int)
    (r1 r2 : VerificationRequest) (c1 c2 : Campaign) (st : GuardState)
    (hsucc : (verifyRedemption deps1 t1 r1 c1 st).1.success = true)
    (hsid : r2.sessionId = r1.sessionId)
    (hfresh : t2 - t1 ≤ SESSION_TTL) :
    (verifyRedemption deps2 t2 r2 c2 (verifyRedemption deps1 t1 r1 c1 st).2).1 =
      ⟨false, none, none, none, some "Session already used - possible replay attack",
       some [⟨FraudFlagType.REPLAY_ATTACK, Severity.CRITICAL,
             "Duplicate session ID detected"⟩], 100⟩ := by
  have hstate := (verifyRedemption_state_split deps1 t1 r1 c1 st).2 hsucc
  set st2 := (verifyRedemption deps1 t1 r1 c1 st).2 with hst2
  have hlook : mapLookup st2.usedSessionIds r1.sessionId = some t1 := by
    rw [hstate]
    exact mapLookup_mapSet_self _ _ _
  have hlook2 : (mapLookup
      (cleanupExpiredSessions t2 st2).usedSessionIds
      r2.sessionId).isSome = true := by
    rw [hsid]
    unfold cleanupExpiredSessions
    split
    · rw [hlook]
      rfl
    · dsimp only
      rw [mapLookup_filter_some _ _ _ _ hlook (decide_eq_true (not_lt.mpr hfresh))]
      rfl
  unfold verifyRedemption
  dsimp only
  rw [if_pos hlook2]

/-- Closed instance of replay_rejected_after_success: a concrete first call
that succeeds end-to-end, then an identical sessionId immediately replayed
is rejected with the exact replay result. -/
theorem replay_rejected_after_success_witness :
    (verifyRedemption depsZero 100000 requestZero campaignZero guardZero).1.success = true ∧
    (verifyRedemption depsZero 100000 requestZero campaignZero
        (verifyRedemption depsZero 100000 requestZero campaignZero guardZero).2).1 =
      ⟨false, none, none, none, some "Session already used - possible replay attack",
       some [⟨FraudFlagType.REPLAY_ATTACK, Severity.CRITICAL,
             "Duplicate session ID detected"⟩], 100⟩ := by
  have hsucc : (verifyRedemption depsZero 100000 requestZero campaignZero
      guardZero).1.success = true := by
    norm_num [verifyRedemption, verifyCore, cleanupExpiredSessions, CLEANUP_INTERVAL, mapLookup,
      analyzeTelemetry, sortByTimestamp, insertByTs, speedCheck, qmaxL, qminL,
      depsZero, requestZero, campaignZero, guardZero, sampleA, sampleB, dummySample,
      jsRound, jsIntToString, renderRat, mapSet]
  exact ⟨hsucc, replay_rejected_after_success depsZero depsZero 100000 100000
    requestZero requestZero campaignZero campaignZero guardZero hsucc rfl
    (by norm_num [SESSION_TTL])⟩

/-! ## Claim theorems: geohash -/

theorem toNat_ofNat_valid (n : Nat) (h : n.isValidChar) : (Char.ofNat n).toNat = n := by
  simp [Char.ofNat, Char.toNat, h, Char.ofNatAux]
  rfl

theorem toLower_idem (c : Char) : c.toLower.toLower = c.toLower := by
  by_cases h : 65 ≤ c.toNat ∧ c.toNat ≤ 90
  · have h1 : c.toLower = Char.ofNat (c.toNat + 32) := by
      unfold Char.toLower
      dsimp only
      rw [if_pos ⟨h.1, h.2⟩]
    have hv : (c.toNat + 32).isValidChar := Or.inl (by omega)
    have htn : (c.toLower).toNat = c.toNat + 32 := by
      rw [h1]
      exact toNat_ofNat_valid _ hv
    set d := c.toLower with hd
    have hno : ¬ (d.toNat ≥ 65 ∧ d.toNat ≤ 90) := by
      rw [htn]
      omega
    show d.toLower = d
    unfold Char.toLower
    dsimp only
    rw [if_neg hno]
  · have h1 : c.toLower = c := by
      unfold Char.toLower
      dsimp only
      rw [if_neg (by exact fun hc => h ⟨hc.1, hc.2⟩)]
    rw [h1]
    exact h1

theorem encodeStep_decodeStep (lat lng : ℚ) (box : GeoBox) (isLng : Bool) :
    decodeStep (encodeStep lat lng box isLng).1 box isLng =
      (encodeStep lat lng box isLng).2 := by
  cases isLng
  · simp only [encodeStep, decodeStep, Bool.false_eq_true, if_false]
    split <;> rfl
  · simp only [encodeStep, decodeStep, if_true]
    split <;> rfl

theorem decodeBits_append (bs1 bs2 : List Bool) (box : GeoBox) (isLng : Bool) :
    decodeBits (bs1 ++ bs2) box isLng =
      decodeBits bs2 (decodeBits bs1 box isLng).1 (decodeBits bs1 box isLng).2 := by
  induction bs1 generalizing box isLng with
  | nil => rfl
  | cons b bs ih =>
    simp only [List.cons_append, decodeBits]
    exact ih _ _

theorem encodeAux_fst_length (lat lng : ℚ) :
    ∀ (n : Nat) (box : GeoBox) (isLng : Bool),
      (encodeAux lat lng n box isLng).1.length = n := by
  intro n
  induction n with
  | zero => intro box isLng; rfl
  | succ n ih =>
    intro box isLng
    unfold encodeAux
    dsimp only
    rw [List.length_cons, ih]

theorem decodeBits_encodeAux (lat lng : ℚ) :
    ∀ (n : Nat) (box : GeoBox) (isLng : Bool),
      ∃ b, decodeBits (encodeAux lat lng n box isLng).1 box isLng =
        ((encodeAux lat lng n box isLng).2, b) := by
  intro n
  induction n with
  | zero => intro box isLng; exact ⟨isLng, rfl⟩
  | succ n ih =>
    intro box isLng
    unfold encodeAux
    dsimp only
    rw [decodeBits]
    rw [encodeStep_decodeStep]
    exact ih (encodeStep lat lng box isLng).2 (!isLng)

theorem encodeStep_inBox (lat lng : ℚ) (box : GeoBox) (isLng : Bool)
    (h : InBox lat lng box) : InBox lat lng (encodeStep lat lng box isLng).2 := by
  obtain ⟨h1, h2, h3, h4⟩ := h
  cases isLng
  · simp only [encodeStep, Bool.false_eq_true, if_false]
    split <;> rename_i hc <;>
      exact ⟨by linarith, by linarith, by linarith, by linarith⟩
  · simp only [encodeStep, if_true]
    split <;> rename_i hc <;>
      exact ⟨by linarith, by linarith, by linarith, by linarith⟩

theorem encodeAux_inBox (lat lng : ℚ) :
    ∀ (n : Nat) (box : GeoBox) (isLng : Bool), InBox lat lng box →
      InBox lat lng (encodeAux lat lng n box isLng).2 := by
  intro n
  induction n with
  | zero => intro box isLng h; exact h
  | succ n ih =>
    intro box isLng h
    unfold encodeAux
    dsimp only
    exact ih _ _ (encodeStep_inBox lat lng box isLng h)

theorem char_roundtrip : ∀ (b1 b2 b3 b4 b5 : Bool),
    idx32 (base32Chars.getD (bitsToNum [b1, b2, b3, b4, b5]) '0') =
      some (bitsToNum [b1, b2, b3, b4, b5]) ∧
    charBits (bitsToNum [b1, b2, b3, b4, b5]) = [b1, b2, b3, b4, b5] ∧
    Char.toLower (base32Chars.getD (bitsToNum [b1, b2, b3, b4, b5]) '0') =
      base32Chars.getD (bitsToNum [b1, b2, b3, b4, b5]) '0' := by decide

theorem decodeChars_encode_chunks :
    ∀ (k : Nat) (bits : List Bool) (box : GeoBox) (isLng : Bool),
      bits.length = 5 * k →
      decodeChars (((chunk5 bits).map
          (fun bs => base32Chars.getD (bitsToNum bs) '0')).map Char.toLower) box isLng =
        Except.ok (decodeBits bits box isLng) := by
  intro k
  induction k with
  | zero =>
    intro bits box isLng h
    have hnil : bits = [] := List.eq_nil_of_length_eq_zero (by omega)
    subst hnil
    rfl
  | succ k ih =>
    intro bits box isLng h
    rcases bits with _ | ⟨b1, bits⟩
    · simp only [List.length_nil, List.length_cons] at h
      omega
    rcases bits with _ | ⟨b2, bits⟩
    · simp only [List.length_nil, List.length_cons] at h
      omega
    rcases bits with _ | ⟨b3, bits⟩
    · simp only [List.length_nil, List.length_cons] at h
      omega
    rcases bits with _ | ⟨b4, bits⟩
    · simp only [List.length_nil, List.length_cons] at h
      omega
    rcases bits with _ | ⟨b5, bits⟩
    · simp only [List.length_nil, List.length_cons] at h
      omega
    have hlen : bits.length = 5 * k := by
      simp only [List.length_cons] at h
      omega
    simp only [chunk5, List.map_cons]
    obtain ⟨hidx, hbits, hlow⟩ := char_roundtrip b1 b2 b3 b4 b5
    rw [hlow]
    simp only [decodeChars, hidx]
    rw [hbits]
    rw [ih bits _ _ hlen]
    have hsplit : (b1 :: b2 :: b3 :: b4 :: b5 :: bits) =
      [b1, b2, b3, b4, b5] ++ bits := rfl
    rw [hsplit, decodeBits_append]

/-- C7: for latitude in [-90, 90], longitude in [-180, 180] and precision in
[1, 9], decoding the encoded geohash succeeds and yields a cell center
within latError of the original latitude and within lngError of the
original longitude (the round trip is a quantization, not the identity). -/
theorem geohash_roundtrip (lat lng : ℚ) (p : Nat)
    (hlat1 : -90 ≤ lat) (hlat2 : lat ≤ 90) (hlng1 : -180 ≤ lng) (hlng2 : lng ≤ 180)
    (hp1 : 1 ≤ p) (hp2 : p ≤ 9) :
    ∃ d, decodeGeohash (encodeGeohash lat lng p) = Except.ok d ∧
      |d.lat - lat| ≤ d.latError ∧ |d.lng - lng| ≤ d.lngError := by
  have hbox : InBox lat lng initBox := ⟨hlat1, hlat2, hlng1, hlng2⟩
  have hlen : ((encodeAux lat lng (5 * p) initBox true).1).length = 5 * p :=
    encodeAux_fst_length lat lng (5 * p) initBox true
  have hchars := decodeChars_encode_chunks p
    (encodeAux lat lng (5 * p) initBox true).1 initBox true hlen
  obtain ⟨bfin, hfin⟩ := decodeBits_encodeAux lat lng (5 * p) initBox true
  obtain ⟨k1, k2, k3, k4⟩ := encodeAux_inBox lat lng (5 * p) initBox true hbox
  rw [hfin] at hchars
  unfold decodeGeohash encodeGeohash
  dsimp only
  rw [show (toLowerStr ⟨(chunk5 (encodeAux lat lng (5 * p) initBox true).1).map
      (fun bs => base32Chars.getD (bitsToNum bs) '0')⟩).data =
      ((chunk5 (encodeAux lat lng (5 * p) initBox true).1).map
      (fun bs => base32Chars.getD (bitsToNum bs) '0')).map Char.toLower from rfl]
  rw [hchars]
  refine ⟨_, rfl, ?_, ?_⟩
  · show |((encodeAux lat lng (5 * p) initBox true).2.minLat +
      (encodeAux lat lng (5 * p) initBox true).2.maxLat) / 2 - lat| ≤
      ((encodeAux lat lng (5 * p) initBox true).2.maxLat -
      (encodeAux lat lng (5 * p) initBox true).2.minLat) / 2
    rw [abs_le]
    constructor <;> linarith
  · show |((encodeAux lat lng (5 * p) initBox true).2.minLng +
      (encodeAux lat lng (5 * p) initBox true).2.maxLng) / 2 - lng| ≤
      ((encodeAux lat lng (5 * p) initBox true).2.maxLng -
      (encodeAux lat lng (5 * p) initBox true).2.minLng) / 2
    rw [abs_le]
    constructor <;> linarith

/-- Closed instance of geohash_roundtrip at the origin with precision 1. -/
theorem geohash_roundtrip_witness :
    ∃ d, decodeGeohash (encodeGeohash 0 0 1) = Except.ok d ∧
      |d.lat - 0| ≤ d.latError ∧ |d.lng - 0| ≤ d.lngError :=
  geohash_roundtrip 0 0 1 (by norm_num) (by norm_num) (by norm_num) (by norm_num)
    (by norm_num) (by norm_num)

theorem idx32Aux_isSome_iff : ∀ (l : List Char) (c : Char) (i : Nat),
    (idx32Aux l c i).isSome = true ↔ c ∈ l := by
  intro l
  induction l with
  | nil => intro c i; simp [idx32Aux]
  | cons hd tl ih =>
    intro c i
    unfold idx32Aux
    by_cases hc : hd = c
    · subst hc
      simp
    · rw [if_neg hc, ih]
      constructor
      · intro hmem
        exact List.mem_cons_of_mem _ hmem
      · intro hmem
        rcases List.mem_cons.mp hmem with h1 | h1
        · exact absurd h1.symm hc
        · exact h1

theorem idx32_isSome_iff (c : Char) : (idx32 c).isSome = true ↔ c ∈ base32Chars :=
  idx32Aux_isSome_iff base32Chars c 0

theorem decodeChars_isOk_iff : ∀ (cs : List Char) (box : GeoBox) (isLng : Bool),
    (decodeChars cs box isLng).isOk = true ↔ ∀ c ∈ cs, c ∈ base32Chars := by
  intro cs
  induction cs with
  | nil => intro box isLng; simp [decodeChars, Except.isOk, Except.toBool]
  | cons c cs ih =>
    intro box isLng
    unfold decodeChars
    rcases hidx : idx32 c with _ | idx
    · have hc : ¬ (c ∈ base32Chars) := by
        rw [← idx32_isSome_iff, hidx]
        simp
      simp [Except.isOk, Except.toBool, hc]
    · have hc : c ∈ base32Chars := by
        rw [← idx32_isSome_iff, hidx]
        rfl
      dsimp only
      rw [ih]
      simp [hc]

theorem decodeChars_error_mem : ∀ (cs : List Char) (box : GeoBox) (isLng : Bool),
    (decodeChars cs box isLng).isOk = false →
    ∃ c, c ∈ cs ∧ idx32 c = none ∧ decodeChars cs box isLng =
      Except.error ("Invalid geohash character: " ++ String.singleton c) := by
  intro cs
  induction cs with
  | nil => intro box isLng h; simp [decodeChars, Except.isOk, Except.toBool] at h
  | cons c cs ih =>
    intro box isLng h
    unfold decodeChars at h ⊢
    rcases hidx : idx32 c with _ | idx
    · exact ⟨c, List.mem_cons_self c cs, hidx, rfl⟩
    · rw [hidx] at h
      dsimp only at h ⊢
      obtain ⟨c1, hmem, hnone, herr⟩ := ih _ _ h
      exact ⟨c1, List.mem_cons_of_mem _ hmem, hnone, herr⟩

theorem decodeGeohash_isOk_eq (h : String) :
    (decodeGeohash h).isOk = (decodeChars (toLowerStr h).data initBox true).isOk := by
  unfold decodeGeohash
  split
  · rename_i e heq
    rw [heq]
    rfl
  · rename_i r box b heq
    rw [heq]
    rfl

theorem decodeGeohash_error_eq (h : String) (e : String)
    (hdc : decodeChars (toLowerStr h).data initBox true = Except.error e) :
    decodeGeohash h = Except.error e := by
  unfold decodeGeohash
  rw [hdc]

/-- C8 (amended): decodeGeohash lowercases its input first, so it fails with
the invalid-character hard error exactly when some character's lowercase
form lies outside the base-32 alphabet, and succeeds otherwise.  (The claim
as frozen says it fails when any character of the raw input is outside the
alphabet; uppercase base-32 letters refute that, see the counterexample.) -/
theorem decode_invalid_char_characterisation (h : String) :
    ((decodeGeohash h).isOk = true ↔ ∀ c ∈ h.data, Char.toLower c ∈ base32Chars) ∧
    ((decodeGeohash h).isOk = false →
      ∃ c, c ∈ h.data ∧ Char.toLower c ∉ base32Chars ∧
        decodeGeohash h =
          Except.error ("Invalid geohash character: " ++
            String.singleton (Char.toLower c))) := by
  constructor
  · rw [decodeGeohash_isOk_eq, decodeChars_isOk_iff]
    constructor
    · intro hall c hc
      exact hall (Char.toLower c) (List.mem_map_of_mem _ hc)
    · intro hall c hc
      obtain ⟨c0, hc0, hback⟩ := List.mem_map.mp hc
      rw [← hback]
      exact hall c0 hc0
  · intro hfail
    rw [decodeGeohash_isOk_eq] at hfail
    obtain ⟨c, hmem, hnone, herr⟩ := decodeChars_error_mem _ _ _ hfail
    obtain ⟨c0, hc0, hback⟩ := List.mem_map.mp hmem
    refine ⟨c0, hc0, ?_, ?_⟩
    · rw [hback, ← idx32_isSome_iff, hnone]
      simp
    · rw [hback]
      exact decodeGeohash_error_eq h _ herr

/-- Counterexample to C8 as frozen: the character B is outside the base-32
alphabet (which holds only lowercase letters), yet decodeGeohash accepts
the string consisting of that single uppercase letter. -/
theorem decode_uppercase_accepted :
    ('B' ∈ base32Chars → False) ∧ (decodeGeohash "B").isOk = true := by
  exact ⟨by decide, by decide⟩

/-- Closed instance of decode_invalid_char_characterisation at an input
whose lowercase form is outside the alphabet. -/
theorem decode_invalid_char_characterisation_witness :
    (decodeGeohash "@").isOk = false ∧
    ∃ c, c ∈ "@".data ∧ Char.toLower c ∉ base32Chars ∧
      decodeGeohash "@" = Except.error ("Invalid geohash character: " ++
        String.singleton (Char.toLower c)) := by
  have hfail : (decodeGeohash "@").isOk = false := by decide
  exact ⟨hfail, (decode_invalid_char_characterisation "@").2 hfail⟩

/-- C10: decodeGeohash is case-insensitive: decoding the lowercased string
gives exactly the same result as decoding the original, because the
function lowercases its input before validating characters; in particular
uppercase base-32 letters are accepted, and the invalid-character error
depends only on lowercase forms (see decode_invalid_char_characterisation
for that refinement). -/
theorem decode_case_insensitive (h : String) :
    decodeGeohash (toLowerStr h) = decodeGeohash h := by
  unfold decodeGeohash
  have hmap : ∀ l : List Char, (l.map Char.toLower).map Char.toLower = l.map Char.toLower := by
    intro l
    induction l with
    | nil => rfl
    | cons c cs ih => simp only [List.map_cons, toLower_idem c, ih]
  have hdata : (toLowerStr (toLowerStr h)).data = (toLowerStr h).data := hmap h.data
  rw [hdata]
